import Mathlib

/-!
Verification development for the cube-sphere precision demo (`src/math.rs`).

The source is floating-point Rust (`f64` for the exact paths, `f32` for the
fast paths).  We embed it shallowly over the exact reals: every `f64`/`f32`
becomes an `ℝ` (the `as_vec2`/`as_vec3` precision casts become the identity),
`powf(0.5)` on a non-negative argument becomes `Real.sqrt`, and the machine
integers (`i32` in `IVec2`, lod values) become `ℤ`.  The operations whose
partiality matters to the claims, the two `i32` left shifts inside
`approximate_relative_st` — the `IVec2 << lod_difference` tile-offset shift
and the `1 << tile.lod` divisor — panic in debug builds for a shift amount
outside `[0, 32)` and are modelled with `Option`, `none` standing for the
panic.
Real-number definitions are necessarily noncomputable (exact `Real.sqrt` has
no evaluator); concrete instances in witnesses are therefore discharged with
`simp`/`norm_num` rather than `decide`.
-/

namespace PrecisionDemo

noncomputable section

/-- The square of the parameter c of the algebraic sigmoid function
(`const C_SQR: f64 = 0.87 * 0.87;`). -/
def C_SQR : ℝ := 0.87 * 0.87

/-- Scalar component of `cube_to_sphere`: glam's `DVec2` arithmetic in
`uv * ((1.0 + C_SQR) / (1.0 + C_SQR * uv * uv)).powf(0.5)` followed by
`0.5 * w + 0.5` is componentwise, so the vector function is this scalar
function applied to each component (the `powf(0.5)` argument is positive). -/
def cube_to_sphere_scalar (uv : ℝ) : ℝ :=
  0.5 * (uv * Real.sqrt ((1 + C_SQR) / (1 + C_SQR * uv * uv))) + 0.5

/-- Converts uv coordinates in range [-1,1] to st coordinates in range [0,1]
(`fn cube_to_sphere(uv: DVec2) -> DVec2`). -/
def cube_to_sphere (uv : ℝ × ℝ) : ℝ × ℝ :=
  (cube_to_sphere_scalar uv.1, cube_to_sphere_scalar uv.2)

/-- Scalar component of `sphere_to_cube`: `let w = (st - 0.5) / 0.5;`
`w / (1.0 + C_SQR - C_SQR * w * w).powf(0.5)`, componentwise. -/
def sphere_to_cube_scalar (st : ℝ) : ℝ :=
  ((st - 0.5) / 0.5) /
    Real.sqrt (1 + C_SQR - C_SQR * ((st - 0.5) / 0.5) * ((st - 0.5) / 0.5))

/-- Converts st coordinates in range [0,1] to uv coordinates in range [-1,1]
(`fn sphere_to_cube(st: DVec2) -> DVec2`). -/
def sphere_to_cube (st : ℝ × ℝ) : ℝ × ℝ :=
  (sphere_to_cube_scalar st.1, sphere_to_cube_scalar st.2)

/-- glam's `DVec3`, over exact reals. -/
@[ext]
structure V3 where
  x : ℝ
  y : ℝ
  z : ℝ

instance : Add V3 := ⟨fun a b => ⟨a.x + b.x, a.y + b.y, a.z + b.z⟩⟩

instance : Sub V3 := ⟨fun a b => ⟨a.x - b.x, a.y - b.y, a.z - b.z⟩⟩

instance : Neg V3 := ⟨fun a => ⟨-a.x, -a.y, -a.z⟩⟩

instance : Zero V3 := ⟨⟨0, 0, 0⟩⟩

/-- `DVec3 * f64` (componentwise scalar multiplication, scalar on the right as
in the source expressions such as `c_s * s`). -/
def V3.mulS (v : V3) (k : ℝ) : V3 := ⟨v.x * k, v.y * k, v.z * k⟩

/-- `DVec3 / f64` (componentwise scalar division). -/
def V3.divS (v : V3) (k : ℝ) : V3 := ⟨v.x / k, v.y / k, v.z / k⟩

/-- `DVec3::abs` (componentwise absolute value). -/
def V3.abs3 (v : V3) : V3 := ⟨|v.x|, |v.y|, |v.z|⟩

/-- `DVec3::length` (the Euclidean norm `dot(self, self).sqrt()`). -/
def V3.length (v : V3) : ℝ := Real.sqrt (v.x * v.x + v.y * v.y + v.z * v.z)

/-- `DVec3::normalize` (`self / self.length()`; the zero vector, which glam
sends to NaN, is sent to the zero vector here since `x / 0 = 0` in Lean). -/
def V3.normalize (v : V3) : V3 := v.divS v.length

@[simp] theorem V3.add_x (a b : V3) : (a + b).x = a.x + b.x := rfl

@[simp] theorem V3.add_y (a b : V3) : (a + b).y = a.y + b.y := rfl

@[simp] theorem V3.add_z (a b : V3) : (a + b).z = a.z + b.z := rfl

@[simp] theorem V3.sub_x (a b : V3) : (a - b).x = a.x - b.x := rfl

@[simp] theorem V3.sub_y (a b : V3) : (a - b).y = a.y - b.y := rfl

@[simp] theorem V3.sub_z (a b : V3) : (a - b).z = a.z - b.z := rfl

@[simp] theorem V3.neg_x (a : V3) : (-a).x = -a.x := rfl

@[simp] theorem V3.neg_y (a : V3) : (-a).y = -a.y := rfl

@[simp] theorem V3.neg_z (a : V3) : (-a).z = -a.z := rfl

@[simp] theorem V3.mulS_def (v : V3) (k : ℝ) : v.mulS k = ⟨v.x * k, v.y * k, v.z * k⟩ := rfl

@[simp] theorem V3.divS_def (v : V3) (k : ℝ) : v.divS k = ⟨v.x / k, v.y / k, v.z / k⟩ := rfl

@[simp] theorem V3.abs3_def (v : V3) : v.abs3 = ⟨|v.x|, |v.y|, |v.z|⟩ := rfl

@[simp] theorem V3.mk_x (a b c : ℝ) : (V3.mk a b c).x = a := rfl

@[simp] theorem V3.mk_y (a b c : ℝ) : (V3.mk a b c).y = b := rfl

@[simp] theorem V3.mk_z (a b c : ℝ) : (V3.mk a b c).z = c := rfl

@[simp] theorem V3.zero_def : (0 : V3) = ⟨0, 0, 0⟩ := rfl

/-- A `DMat3` stored as its three columns, as glam does
(`DMat3::from_cols_array` is column-major). -/
structure M3 where
  c0 : V3
  c1 : V3
  c2 : V3

/-- `DMat3 * DVec3`: the linear combination of the columns. -/
def M3.mulVec (m : M3) (v : V3) : V3 := m.c0.mulS v.x + m.c1.mulS v.y + m.c2.mulS v.z

/-- Determinant of a 3x3 matrix (cofactor expansion along the first row),
as used by glam's matrix inverse. -/
def M3.det (m : M3) : ℝ :=
  m.c0.x * (m.c1.y * m.c2.z - m.c2.y * m.c1.z) -
    m.c1.x * (m.c0.y * m.c2.z - m.c2.y * m.c0.z) +
    m.c2.x * (m.c0.y * m.c1.z - m.c1.y * m.c0.z)

/-- Adjugate (transposed cofactor matrix) of a 3x3 matrix. -/
def M3.adjugate (m : M3) : M3 :=
  ⟨⟨m.c1.y * m.c2.z - m.c2.y * m.c1.z,
    -(m.c0.y * m.c2.z - m.c2.y * m.c0.z),
    m.c0.y * m.c1.z - m.c1.y * m.c0.z⟩,
   ⟨-(m.c1.x * m.c2.z - m.c2.x * m.c1.z),
    m.c0.x * m.c2.z - m.c2.x * m.c0.z,
    -(m.c0.x * m.c1.z - m.c1.x * m.c0.z)⟩,
   ⟨m.c1.x * m.c2.y - m.c2.x * m.c1.y,
    -(m.c0.x * m.c2.y - m.c2.x * m.c0.y),
    m.c0.x * m.c1.y - m.c1.x * m.c0.y⟩⟩

/-- Scalar multiple of a 3x3 matrix. -/
def M3.smulM (m : M3) (k : ℝ) : M3 := ⟨m.c0.mulS k, m.c1.mulS k, m.c2.mulS k⟩

/-- Diagonal matrix (what `DMat4::from_scale_rotation_translation` produces
as its linear part when the rotation is the identity quaternion, which is the
only rotation this program ever uses). -/
def M3.diag (s : V3) : M3 := ⟨⟨s.x, 0, 0⟩, ⟨0, s.y, 0⟩, ⟨0, 0, s.z⟩⟩

/-- The affine content of the program's `DMat4` values: a linear part and a
translation.  Every `DMat4` built by the source has last row `(0,0,0,1)`, so
this carries exactly the used information. -/
structure Mat4A where
  linear : M3
  translation : V3

/-- `DMat4::transform_point3` (applies the linear part and the translation). -/
def Mat4A.transform_point3 (m : Mat4A) (p : V3) : V3 := m.linear.mulVec p + m.translation

/-- `DMat4::transform_vector3` (applies only the linear part). -/
def Mat4A.transform_vector3 (m : Mat4A) (v : V3) : V3 := m.linear.mulVec v

/-- `DMat4::from_scale_rotation_translation(scale, DQuat::IDENTITY, position)`. -/
def Mat4A.from_scale_translation (scale position : V3) : Mat4A := ⟨M3.diag scale, position⟩

/-- `DMat4::inverse` restricted to affine matrices: the inverse linear part is
`adjugate / det` and the inverse translation is `-(adjugate / det) * t`,
which is what glam's cofactor-based inverse computes in exact arithmetic.
For a singular linear part glam produces non-finite entries; here `1 / 0 = 0`
makes the result the zero map, standing in for that degenerate output. -/
def Mat4A.inverse (m : Mat4A) : Mat4A :=
  ⟨(m.linear.adjugate).smulM (1 / m.linear.det),
   -(((m.linear.adjugate).mulVec m.translation).mulS (1 / m.linear.det))⟩

/-- `SIDE_MATRICES`: one matrix per side, which shuffles the a, b, and c
component to their corresponding position.  Transcribed column-major from
the `DMat3::from_cols_array` literals. -/
def SIDE_MATRICES : Fin 6 → M3 := fun side =>
  match side with
  | ⟨0, _⟩ => ⟨⟨-1, 0, 0⟩, ⟨0, 0, 1⟩, ⟨0, -1, 0⟩⟩
  | ⟨1, _⟩ => ⟨⟨0, 0, 1⟩, ⟨1, 0, 0⟩, ⟨0, -1, 0⟩⟩
  | ⟨2, _⟩ => ⟨⟨0, 1, 0⟩, ⟨1, 0, 0⟩, ⟨0, 0, 1⟩⟩
  | ⟨3, _⟩ => ⟨⟨1, 0, 0⟩, ⟨0, -1, 0⟩, ⟨0, 0, 1⟩⟩
  | ⟨4, _⟩ => ⟨⟨0, 0, -1⟩, ⟨0, -1, 0⟩, ⟨1, 0, 0⟩⟩
  | ⟨5, _⟩ => ⟨⟨0, -1, 0⟩, ⟨0, 0, 1⟩, ⟨1, 0, 0⟩⟩
  | ⟨n + 6, h⟩ => absurd h (by omega)

/-- `tile_count(lod) = 1 << lod` (both the free function and
`Tile::tile_count` in the source).  Modelled as the total `2 ^ lod.toNat`,
which agrees with the `i32` shift on `[0, 32)`; where a claim is about the
shift's debug-build panic itself — the two shifts inside
`approximate_relative_st` — the panic is modelled explicitly there with
`Option` guards rather than here.  All other call sites the claims exercise
use lods in `[0, 32)`. -/
def tile_count (lod : ℤ) : ℤ := 2 ^ lod.toNat

/-- Rust's `as i32` float-to-int cast (truncation toward zero; saturation and
NaN behaviour are outside the exercised range). -/
def rtrunc (x : ℝ) : ℤ := if 0 ≤ x then ⌊x⌋ else ⌈x⌉

/-- Rust's `f64::round` (round half away from zero), used by `DVec2::round`. -/
def rround (x : ℝ) : ℤ := if 0 ≤ x then ⌊x + 1 / 2⌋ else ⌈x - 1 / 2⌉

/-- glam's `fract` (`self - self.trunc()`; on the non-negative values this
program produces it coincides with `self - self.floor()`). -/
def rfract (x : ℝ) : ℝ := x - rtrunc x

/-- `enum SideInfo`. -/
inductive SideInfo where
  | Fixed0
  | Fixed1
  | PositiveS
  | PositiveT

/-- `SideInfo::EVEN_LIST`. -/
def SideInfo.EVEN_LIST : Fin 6 → SideInfo × SideInfo := fun i =>
  match i with
  | ⟨0, _⟩ => (.PositiveS, .PositiveT)
  | ⟨1, _⟩ => (.Fixed0, .PositiveT)
  | ⟨2, _⟩ => (.Fixed0, .PositiveS)
  | ⟨3, _⟩ => (.PositiveT, .PositiveS)
  | ⟨4, _⟩ => (.PositiveT, .Fixed0)
  | ⟨5, _⟩ => (.PositiveS, .Fixed0)
  | ⟨n + 6, h⟩ => absurd h (by omega)

/-- `SideInfo::ODD_LIST`. -/
def SideInfo.ODD_LIST : Fin 6 → SideInfo × SideInfo := fun i =>
  match i with
  | ⟨0, _⟩ => (.PositiveS, .PositiveT)
  | ⟨1, _⟩ => (.PositiveS, .Fixed1)
  | ⟨2, _⟩ => (.PositiveT, .Fixed1)
  | ⟨3, _⟩ => (.PositiveT, .PositiveS)
  | ⟨4, _⟩ => (.Fixed1, .PositiveS)
  | ⟨5, _⟩ => (.Fixed1, .PositiveT)
  | ⟨n + 6, h⟩ => absurd h (by omega)

/-- `SideInfo::project_to_side`: `index = ((6 + other_side - side) % 6)`,
then the even or odd lookup table according to the source side's parity.
(`u32` arithmetic; the `6 +` keeps the subtraction from underflowing, so `ℕ`
subtraction computes the same value.) -/
def SideInfo.project_to_side (side other_side : Fin 6) : SideInfo × SideInfo :=
  let index : Fin 6 := ⟨(6 + other_side.val - side.val) % 6, Nat.mod_lt _ (by norm_num)⟩
  if side.val % 2 = 0 then SideInfo.EVEN_LIST index else SideInfo.ODD_LIST index

/-- `struct Coordinate`: a location on the unit cube sphere.  The source's
`side: u32` is always one of the six faces, modelled as `Fin 6`. -/
@[ext]
structure Coordinate where
  side : Fin 6
  st : ℝ × ℝ

/-- The per-side reconstruction of a local direction from uv coordinates:
the `match self.side` table inside `Coordinate::world_position` (the
`unreachable!` arm cannot be hit with `Fin 6`). -/
def sidePattern (side : Fin 6) (uv : ℝ × ℝ) : V3 :=
  match side with
  | ⟨0, _⟩ => ⟨-1, -uv.2, uv.1⟩
  | ⟨1, _⟩ => ⟨uv.1, -uv.2, 1⟩
  | ⟨2, _⟩ => ⟨uv.1, 1, uv.2⟩
  | ⟨3, _⟩ => ⟨1, -uv.1, uv.2⟩
  | ⟨4, _⟩ => ⟨uv.2, -uv.1, -1⟩
  | ⟨5, _⟩ => ⟨uv.2, -1, uv.1⟩
  | ⟨n + 6, h⟩ => absurd h (by omega)

/-- `struct TerrainModel` (the `rotation` field is always
`DQuat::IDENTITY` and is dropped; the two matrices are kept). -/
structure TerrainModel where
  position : V3
  scale : V3
  world_from_local : Mat4A
  local_from_world : Mat4A

/-- `TerrainModel::new(position, major_axis, minor_axis)`: scale
`(major, minor, major)`, identity rotation, forward matrix from
scale/rotation/translation, inverse matrix by matrix inversion.
No validation of the axes is performed (exactly as in the source). -/
def TerrainModel.new (position : V3) (major_axis minor_axis : ℝ) : TerrainModel :=
  let scale := V3.mk major_axis minor_axis major_axis
  let world_from_local := Mat4A.from_scale_translation scale position
  ⟨position, scale, world_from_local, world_from_local.inverse⟩

/-- `TerrainModel::position_local_to_world`. -/
def TerrainModel.position_local_to_world (m : TerrainModel) (local_position : V3) : V3 :=
  m.world_from_local.transform_point3 local_position

/-- `TerrainModel::position_world_to_local` (note the re-normalization). -/
def TerrainModel.position_world_to_local (m : TerrainModel) (world_position : V3) : V3 :=
  (m.local_from_world.transform_point3 world_position).normalize

/-- `TerrainModel::normal_local_to_world`. -/
def TerrainModel.normal_local_to_world (m : TerrainModel) (local_position : V3) : V3 :=
  (m.world_from_local.transform_vector3 local_position).normalize

/-- `TerrainModel::scale()` (the mean of the equatorial and polar radii). -/
def TerrainModel.meanScale (m : TerrainModel) : ℝ := (m.scale.x + m.scale.y) / 2

/-- `Coordinate::from_world_position`: transform into model-local space and
normalize, select the dominant axis (6-way), derive uv from the two other
axes, then warp uv to st. -/
def Coordinate.from_world_position (world_position : V3) (model : TerrainModel) : Coordinate :=
  let normal := model.position_world_to_local world_position
  let abs_normal := normal.abs3
  let side_uv : Fin 6 × (ℝ × ℝ) :=
    if abs_normal.x > abs_normal.y ∧ abs_normal.x > abs_normal.z then
      if normal.x < 0 then (0, (-normal.z / normal.x, normal.y / normal.x))
      else (3, (-normal.y / normal.x, normal.z / normal.x))
    else if abs_normal.z > abs_normal.y then
      if normal.z > 0 then (1, (normal.x / normal.z, -normal.y / normal.z))
      else (4, (normal.y / normal.z, -normal.x / normal.z))
    else
      if normal.y > 0 then (2, (normal.x / normal.y, normal.z / normal.y))
      else (5, (-normal.z / normal.y, -normal.x / normal.y))
  ⟨side_uv.1, cube_to_sphere side_uv.2⟩

/-- `Coordinate::world_position`: warp st to uv, rebuild the local direction
from the side's pattern, normalize, transform to world space, offset along
the world normal by `height`. -/
def Coordinate.world_position (self : Coordinate) (model : TerrainModel) (height : ℝ) : V3 :=
  let uv := sphere_to_cube self.st
  let local_position := (sidePattern self.side uv).normalize
  model.position_local_to_world local_position +
    (model.normal_local_to_world local_position).mulS height

/-- `Coordinate::project_to_side`: the table-driven reprojection onto
another face. -/
def Coordinate.project_to_side (self : Coordinate) (side : Fin 6) : Coordinate :=
  let info := SideInfo.project_to_side self.side side
  let component : SideInfo → ℝ := fun i =>
    match i with
    | .Fixed0 => 0
    | .Fixed1 => 1
    | .PositiveS => self.st.1
    | .PositiveT => self.st.2
  ⟨side, (component info.1, component info.2)⟩

/-- `struct Tile`: a quadtree tile of the cube sphere (`xy: IVec2` becomes
`ℤ × ℤ`, `lod: i32` becomes `ℤ`). -/
structure Tile where
  xy : ℤ × ℤ
  lod : ℤ
  side : Fin 6

/-- `Tile::new`. -/
def Tile.new (side : Fin 6) (lod : ℤ) (x y : ℤ) : Tile := ⟨(x, y), lod, side⟩

/-- `Tile::from_world_position`: compute the coordinate, scale st by
`1 << lod`, truncate to the tile index (`as_ivec2`), keep the fractional
part as the vertex offset. -/
def Tile.from_world_position (world_position : V3) (lod : ℤ) (model : TerrainModel) :
    Tile × (ℝ × ℝ) :=
  let coordinate := Coordinate.from_world_position world_position model
  let st := (coordinate.st.1 * (tile_count lod : ℝ), coordinate.st.2 * (tile_count lod : ℝ))
  ((Tile.new coordinate.side lod (rtrunc st.1) (rtrunc st.2)), (rfract st.1, rfract st.2))

/-- `struct SideParameter`: the per-face data of the view approximation
(`Vec2`/`Vec3` single-precision fields become exact reals, so the
`as_vec2`/`as_vec3` downcasts in `compute` are the identity here). -/
structure SideParameter where
  view_st : ℝ × ℝ
  origin_xy : ℤ × ℤ
  origin_st : ℝ × ℝ
  delta_relative_st : ℝ × ℝ
  c : V3
  c_s : V3
  c_t : V3
  c_ss : V3
  c_st : V3
  c_tt : V3

/-- `struct TerrainModelApproximation`. -/
structure TerrainModelApproximation where
  view_position : V3
  view_coordinate : Coordinate
  model : TerrainModel
  origin_lod : ℤ
  sides : Fin 6 → SideParameter

/-- `TerrainModelApproximation::origin_coordinate`: round the view st to the
origin-lod tile grid. -/
def TerrainModelApproximation.origin_coordinate (coordinate : Coordinate) (origin_lod : ℤ) :
    Coordinate :=
  ⟨coordinate.side,
    ((rround (coordinate.st.1 * (tile_count origin_lod : ℝ)) : ℝ) / (tile_count origin_lod : ℝ),
     (rround (coordinate.st.2 * (tile_count origin_lod : ℝ)) : ℝ) / (tile_count origin_lod : ℝ))⟩

/-- The body of the per-side loop in `TerrainModelApproximation::compute`
(lines 316-389 of `math.rs`), transcribed term by term.  Each of the six
`sides` entries is this pure function of the loop inputs. -/
def computeSide (model : TerrainModel) (view_position : V3)
    (view_coordinate origin_coordinate : Coordinate) (origin_lod : ℤ) (side : Fin 6) :
    SideParameter :=
  let sm := SIDE_MATRICES side
  let oc := origin_coordinate.project_to_side side
  let vc := view_coordinate.project_to_side side
  let origin_xy := (rtrunc (oc.st.1 * (tile_count origin_lod : ℝ)),
                    rtrunc (oc.st.2 * (tile_count origin_lod : ℝ)))
  let delta_relative_st := (oc.st.1 - vc.st.1, oc.st.2 - vc.st.2)
  let m := model.world_from_local
  let s := vc.st.1
  let t := vc.st.2
  let u_denom := Real.sqrt (1 - 4 * C_SQR * s * (s - 1))
  let u := (2 * s - 1) / u_denom
  let u_ds := 2 * (C_SQR + 1) / u_denom ^ 3
  let u_dss := 12 * C_SQR * (C_SQR + 1) * (2 * s - 1) / u_denom ^ 5
  let v_denom := Real.sqrt (1 - 4 * C_SQR * t * (t - 1))
  let v := (2 * t - 1) / v_denom
  let v_dt := 2 * (C_SQR + 1) / v_denom ^ 3
  let v_dtt := 12 * C_SQR * (C_SQR + 1) * (2 * t - 1) / v_denom ^ 5
  let l := Real.sqrt (1 + u * u + v * v)
  let l_ds := u * u_ds / l
  let l_dt := v * v_dt / l
  let l_dss := (u * u_dss * l * l + (v * v + 1) * u_ds * u_ds) / l ^ 3
  let l_dst := -(u * v * u_ds * v_dt) / l ^ 3
  let l_dtt := (v * v_dtt * l * l + (u * u + 1) * v_dt * v_dt) / l ^ 3
  let a : ℝ := 1
  let a_ds := -l_ds
  let a_dt := -l_dt
  let a_dss := 2 * l_ds * l_ds - l * l_dss
  let a_dst := 2 * l_ds * l_dt - l * l_dst
  let a_dtt := 2 * l_dt * l_dt - l * l_dtt
  let b := u
  let b_ds := -u * l_ds + l * u_ds
  let b_dt := -u * l_dt
  let b_dss := 2 * u * l_ds * l_ds - l * (2 * u_ds * l_ds + u * l_dss) + u_dss * l * l
  let b_dst := 2 * u * l_ds * l_dt - l * (u_ds * l_dt + u * l_dst)
  let b_dtt := 2 * u * l_dt * l_dt - l * u * l_dtt
  let c := v
  let c_ds := -v * l_ds
  let c_dt := -v * l_dt + l * v_dt
  let c_dss := 2 * v * l_ds * l_ds - l * v * l_dss
  let c_dst := 2 * v * l_ds * l_dt - l * (v_dt * l_ds + v * l_dst)
  let c_dtt := 2 * v * l_dt * l_dt - l * (2 * v_dt * l_dt + v * l_dtt) + v_dtt * l * l
  let p := m.transform_point3 ((sm.mulVec ⟨a, b, c⟩).divS l)
  let p_ds := m.transform_vector3 ((sm.mulVec ⟨a_ds, b_ds, c_ds⟩).divS (l ^ 2))
  let p_dt := m.transform_vector3 ((sm.mulVec ⟨a_dt, b_dt, c_dt⟩).divS (l ^ 2))
  let p_dss := m.transform_vector3 ((sm.mulVec ⟨a_dss, b_dss, c_dss⟩).divS (l ^ 3))
  let p_dst := m.transform_vector3 ((sm.mulVec ⟨a_dst, b_dst, c_dst⟩).divS (l ^ 3))
  let p_dtt := m.transform_vector3 ((sm.mulVec ⟨a_dtt, b_dtt, c_dtt⟩).divS (l ^ 3))
  { view_st := vc.st
    origin_xy := origin_xy
    origin_st := oc.st
    delta_relative_st := delta_relative_st
    c := p - view_position
    c_s := p_ds
    c_t := p_dt
    c_ss := p_dss.divS 2
    c_st := p_dst
    c_tt := p_dtt.divS 2 }

/-- `TerrainModelApproximation::compute`. -/
def TerrainModelApproximation.compute (model : TerrainModel) (view_position : V3)
    (origin_lod : ℤ) : TerrainModelApproximation :=
  let view_coordinate := Coordinate.from_world_position view_position model
  let origin_coordinate :=
    TerrainModelApproximation.origin_coordinate view_coordinate origin_lod
  { view_position := view_position
    view_coordinate := view_coordinate
    model := model
    origin_lod := origin_lod
    sides := fun side =>
      computeSide model view_position view_coordinate origin_coordinate origin_lod side }

/-- `TerrainModelApproximation::relative_st` (the exact/reference path):
`(tile.xy + vertex_offset - origin_st * tile_count(tile.lod)) / (1 << origin_lod)`
componentwise. -/
def TerrainModelApproximation.relative_st (self : TerrainModelApproximation)
    (tile : Tile) (vertex_offset : ℝ × ℝ) : ℝ × ℝ :=
  (((tile.xy.1 : ℝ) + vertex_offset.1 -
      (self.sides tile.side).origin_st.1 * (tile_count tile.lod : ℝ)) /
        (tile_count self.origin_lod : ℝ),
   ((tile.xy.2 : ℝ) + vertex_offset.2 -
      (self.sides tile.side).origin_st.2 * (tile_count tile.lod : ℝ)) /
        (tile_count self.origin_lod : ℝ))

/-- `TerrainModelApproximation::relative_position` (the exact path). -/
def TerrainModelApproximation.relative_position (self : TerrainModelApproximation)
    (relative_st : ℝ × ℝ) (side : Fin 6) : V3 :=
  let st := ((self.sides side).origin_st.1 + relative_st.1,
             (self.sides side).origin_st.2 + relative_st.2)
  (Coordinate.mk side st).world_position self.model 0 - self.view_position

/-- The condition of the `if lod_difference < 0 { dbg!(...) }` diagnostic
branch in `TerrainModelApproximation::approximate_relative_st`. -/
def TerrainModelApproximation.approximate_relative_st_warns
    (self : TerrainModelApproximation) (tile : Tile) : Bool :=
  decide (tile.lod - self.origin_lod < 0)

/-- `TerrainModelApproximation::approximate_relative_st` (the fast path).
After the diagnostic the source evaluates
`tile.xy - self.sides[..].origin_xy << lod_difference`, which by Rust
operator precedence is `(tile.xy - origin_xy) << lod_difference`, and then
divides by `(1 << tile.lod) as f32`.  Both `i32` shifts panic in debug
builds when their shift amount is outside `[0, 32)` — the first for
`lod_difference`, the second for `tile.lod` itself — and each panic is
modelled as `none` (the outer guard is the offset shift, the inner guard the
divisor shift, in source evaluation order).  Inside the guards
`tile_count tile.lod = 1 << tile.lod` exactly.  (`i32` value-range wrapping
of the subtraction and of bits shifted out the top is not modelled; the
claims stay far from it.) -/
def TerrainModelApproximation.approximate_relative_st?
    (self : TerrainModelApproximation) (tile : Tile) (vertex_offset : ℝ × ℝ) :
    Option (ℝ × ℝ) :=
  if 0 ≤ tile.lod - self.origin_lod ∧ tile.lod - self.origin_lod < 32 then
    if 0 ≤ tile.lod ∧ tile.lod < 32 then
      some ((((tile.xy.1 - (self.sides tile.side).origin_xy.1) *
                2 ^ (tile.lod - self.origin_lod).toNat : ℤ) + vertex_offset.1) /
              (tile_count tile.lod : ℝ),
            (((tile.xy.2 - (self.sides tile.side).origin_xy.2) *
                2 ^ (tile.lod - self.origin_lod).toNat : ℤ) + vertex_offset.2) /
              (tile_count tile.lod : ℝ))
    else none
  else none

/-- `TerrainModelApproximation::approximate_relative_position` (the fast
path): the Taylor polynomial
`c + c_s*s + c_t*t + c_ss*s*s + c_st*s*t + c_tt*t*t` at
`(s, t) = relative_st + delta_relative_st`. -/
def TerrainModelApproximation.approximate_relative_position
    (self : TerrainModelApproximation) (relative_st : ℝ × ℝ) (side : Fin 6) : V3 :=
  let sp := self.sides side
  let s := relative_st.1 + sp.delta_relative_st.1
  let t := relative_st.2 + sp.delta_relative_st.2
  sp.c + sp.c_s.mulS s + sp.c_t.mulS t + sp.c_ss.mulS (s * s) +
    sp.c_st.mulS (s * t) + sp.c_tt.mulS (t * t)

/-- Modelled from the spec: section 7 requires that constructing a
`TerrainModel` with a degenerate scale (a zero or negative axis length) fail
fast at construction time.  The source's `TerrainModel::new` has no such
check; this claim-shaped constructor is used only to compare the source
against the spec's required behaviour. -/
def TerrainModel.new_spec (position : V3) (major_axis minor_axis : ℝ) :
    Option TerrainModel :=
  if 0 < major_axis ∧ 0 < minor_axis then
    some (TerrainModel.new position major_axis minor_axis)
  else none

/-- The unit sphere centred at the origin, used as a concrete model in the
witnesses and counterexamples. -/
def unitModel : TerrainModel := TerrainModel.new ⟨0, 0, 0⟩ 1 1

theorem C_SQR_pos : 0 < C_SQR := by norm_num [C_SQR]

theorem w_rewrite (x : ℝ) : (x - 0.5) / 0.5 = 2 * x - 1 := by ring

/-- The denominator of the inverse warp is at least 1 on `[-1, 1]`. -/
theorem sphere_to_cube_denom_pos {w : ℝ} (h : w * w ≤ 1) :
    0 < 1 + C_SQR - C_SQR * w * w := by
  nlinarith [C_SQR_pos]

/-- Scalar round trip: the algebraic-sigmoid warp and its inverse cancel
exactly (in exact real arithmetic) on `[0, 1]`. -/
theorem cube_to_sphere_sphere_to_cube {x : ℝ} (h0 : 0 ≤ x) (h1 : x ≤ 1) :
    cube_to_sphere_scalar (sphere_to_cube_scalar x) = x := by
  unfold sphere_to_cube_scalar cube_to_sphere_scalar
  simp only [w_rewrite]
  set w : ℝ := 2 * x - 1 with hw
  have hw2 : w * w ≤ 1 := by nlinarith
  have hD : 0 < 1 + C_SQR - C_SQR * w * w := sphere_to_cube_denom_pos hw2
  set D : ℝ := 1 + C_SQR - C_SQR * w * w with hDdef
  have hsD : 0 < Real.sqrt D := Real.sqrt_pos.mpr hD
  have hsq : Real.sqrt D * Real.sqrt D = D := Real.mul_self_sqrt hD.le
  have hCpos : (0:ℝ) < 1 + C_SQR := by nlinarith [C_SQR_pos]
  have harg : 1 + C_SQR * (w / Real.sqrt D) * (w / Real.sqrt D) = (1 + C_SQR) / D := by
    rw [mul_assoc, div_mul_div_comm, hsq]
    field_simp
    ring
  rw [harg]
  have hquot : (1 + C_SQR) / ((1 + C_SQR) / D) = D := by
    field_simp
  rw [hquot]
  rw [div_mul_cancel₀ w (ne_of_gt hsD)]
  rw [hw]
  ring

theorem V3.mulS_zero (v : V3) : v.mulS 0 = 0 := by
  ext <;> simp

theorem V3.add_zero' (v : V3) : v + 0 = v := by
  ext <;> simp

/-- The source's `u(s)` (and `v(t)`) formula in `compute` is exactly the
inverse warp `sphere_to_cube` of the same coordinate: the two square-root
arguments agree by ring arithmetic. -/
theorem warp_denom_eq (s : ℝ) :
    sphere_to_cube_scalar s = (2 * s - 1) / Real.sqrt (1 - 4 * C_SQR * s * (s - 1)) := by
  unfold sphere_to_cube_scalar
  simp only [w_rewrite]
  rw [show (1:ℝ) + C_SQR - C_SQR * (2 * s - 1) * (2 * s - 1) =
        1 - 4 * C_SQR * s * (s - 1) from by ring]

/-- Each side matrix applied to `(a, b, c) = (1, u, v)` produces exactly the
per-side local-direction pattern of `Coordinate::world_position`. -/
theorem mulVec_sidePattern (side : Fin 6) (u v : ℝ) :
    (SIDE_MATRICES side).mulVec ⟨1, u, v⟩ = sidePattern side (u, v) := by
  fin_cases side <;>
    (ext <;> simp [SIDE_MATRICES, sidePattern, M3.mulVec])

/-- Every side pattern is a signed permutation of `(1, u, v)`, so its length
is `sqrt (1 + u*u + v*v)`, the source's `l`. -/
theorem sidePattern_length (side : Fin 6) (u v : ℝ) :
    (sidePattern side (u, v)).length = Real.sqrt (1 + u * u + v * v) := by
  fin_cases side <;>
    (simp only [sidePattern, V3.length, V3.mk_x, V3.mk_y, V3.mk_z]; congr 1; ring)

theorem computeSide_origin_st (model : TerrainModel) (view_position : V3)
    (view_coordinate origin_coordinate : Coordinate) (origin_lod : ℤ) (side : Fin 6) :
    (computeSide model view_position view_coordinate origin_coordinate origin_lod side).origin_st =
      (origin_coordinate.project_to_side side).st := rfl

theorem computeSide_origin_xy (model : TerrainModel) (view_position : V3)
    (view_coordinate origin_coordinate : Coordinate) (origin_lod : ℤ) (side : Fin 6) :
    (computeSide model view_position view_coordinate origin_coordinate origin_lod side).origin_xy =
      (rtrunc ((origin_coordinate.project_to_side side).st.1 * (tile_count origin_lod : ℝ)),
       rtrunc ((origin_coordinate.project_to_side side).st.2 * (tile_count origin_lod : ℝ))) := rfl

theorem computeSide_delta_relative_st (model : TerrainModel) (view_position : V3)
    (view_coordinate origin_coordinate : Coordinate) (origin_lod : ℤ) (side : Fin 6) :
    (computeSide model view_position view_coordinate origin_coordinate origin_lod
        side).delta_relative_st =
      ((origin_coordinate.project_to_side side).st.1 -
         (view_coordinate.project_to_side side).st.1,
       (origin_coordinate.project_to_side side).st.2 -
         (view_coordinate.project_to_side side).st.2) := rfl

theorem compute_sides (model : TerrainModel) (view_position : V3) (origin_lod : ℤ)
    (side : Fin 6) :
    (TerrainModelApproximation.compute model view_position origin_lod).sides side =
      computeSide model view_position
        (Coordinate.from_world_position view_position model)
        (TerrainModelApproximation.origin_coordinate
          (Coordinate.from_world_position view_position model) origin_lod)
        origin_lod side := rfl

theorem compute_origin_lod (model : TerrainModel) (view_position : V3) (origin_lod : ℤ) :
    (TerrainModelApproximation.compute model view_position origin_lod).origin_lod =
      origin_lod := rfl

theorem compute_model (model : TerrainModel) (view_position : V3) (origin_lod : ℤ) :
    (TerrainModelApproximation.compute model view_position origin_lod).model = model := rfl

theorem compute_view_position (model : TerrainModel) (view_position : V3) (origin_lod : ℤ) :
    (TerrainModelApproximation.compute model view_position origin_lod).view_position =
      view_position := rfl

/-- The 0th-order Taylor coefficient `c` computed by the per-side loop is
exactly the world position of the view's projection onto this side, minus the
view position: the derivative-block value `(a, b, c)/l = (1, u, v)/l` is the
normalized side pattern at `uv = sphere_to_cube(view_st)`. -/
theorem computeSide_c (model : TerrainModel) (view_position : V3)
    (view_coordinate origin_coordinate : Coordinate) (origin_lod : ℤ) (side : Fin 6) :
    (computeSide model view_position view_coordinate origin_coordinate origin_lod side).c =
      (Coordinate.mk side (view_coordinate.project_to_side side).st).world_position model 0 -
        view_position := by
  simp only [computeSide]
  unfold Coordinate.world_position TerrainModel.position_local_to_world
  simp only [V3.mulS_zero, V3.add_zero', V3.normalize]
  rw [show sphere_to_cube (Coordinate.mk side
        (view_coordinate.project_to_side side).st).st =
      (sphere_to_cube_scalar (view_coordinate.project_to_side side).st.1,
       sphere_to_cube_scalar (view_coordinate.project_to_side side).st.2) from rfl]
  rw [warp_denom_eq, warp_denom_eq]
  rw [sidePattern_length, mulVec_sidePattern]

/-- Claim C2: for every terrain model, view world position, anchor lod and
face, the fast path evaluated at the view's own projected point — the input
`relative_st` equal to the negation of that face's `delta_relative_st`, so
that the Taylor variables `(s, t)` are `(0, 0)` — equals the exact path on
the same input: in the exact-real model the two agree exactly (hence, in the
source, to single-precision rounding), because the 0th-order coefficient `c`
is the exact displacement from the view to the point below it on this face. -/
theorem taylor_exact_at_origin (model : TerrainModel) (view_position : V3)
    (origin_lod : ℤ) (side : Fin 6) :
    (TerrainModelApproximation.compute model view_position
        origin_lod).approximate_relative_position
      (-((TerrainModelApproximation.compute model view_position origin_lod).sides
          side).delta_relative_st) side =
    (TerrainModelApproximation.compute model view_position origin_lod).relative_position
      (-((TerrainModelApproximation.compute model view_position origin_lod).sides
          side).delta_relative_st) side := by
  unfold TerrainModelApproximation.approximate_relative_position
    TerrainModelApproximation.relative_position
  simp only [compute_sides, compute_model, compute_view_position, Prod.fst_neg, Prod.snd_neg,
    neg_add_cancel, computeSide_delta_relative_st, computeSide_origin_st]
  rw [V3.mulS_zero, V3.mulS_zero]
  rw [show (0:ℝ) * 0 = 0 from by ring, V3.mulS_zero, V3.mulS_zero, V3.mulS_zero]
  rw [V3.add_zero', V3.add_zero', V3.add_zero', V3.add_zero', V3.add_zero']
  rw [computeSide_c]
  ring_nf

/-- The forward transform of a constructed model: scale then translate. -/
theorem new_position_local_to_world (pos : V3) (maj mn : ℝ) (v : V3) :
    (TerrainModel.new pos maj mn).position_local_to_world v =
      ⟨maj * v.x + pos.x, mn * v.y + pos.y, maj * v.z + pos.z⟩ := by
  unfold TerrainModel.new TerrainModel.position_local_to_world Mat4A.from_scale_translation
    Mat4A.transform_point3 M3.diag M3.mulVec
  ext <;> simp

/-- For non-degenerate axes the inverse matrix built by `TerrainModel::new`
undoes the translation and the scale (and then `position_world_to_local`
re-normalizes). -/
theorem new_position_world_to_local (pos : V3) (maj mn : ℝ)
    (hmaj : maj ≠ 0) (hmn : mn ≠ 0) (w : V3) :
    (TerrainModel.new pos maj mn).position_world_to_local w =
      V3.normalize ⟨(w.x - pos.x) / maj, (w.y - pos.y) / mn, (w.z - pos.z) / maj⟩ := by
  unfold TerrainModel.new TerrainModel.position_world_to_local Mat4A.inverse
    Mat4A.from_scale_translation Mat4A.transform_point3 M3.diag M3.adjugate M3.det
    M3.smulM M3.mulVec
  congr 1
  ext <;> (simp; field_simp; ring)

theorem V3.length_nonneg (v : V3) : 0 ≤ v.length := Real.sqrt_nonneg _

theorem V3.length_divS (v : V3) (k : ℝ) : (v.divS k).length = v.length / |k| := by
  have hS : (0:ℝ) ≤ v.x * v.x + v.y * v.y + v.z * v.z := by
    nlinarith [mul_self_nonneg v.x, mul_self_nonneg v.y, mul_self_nonneg v.z]
  unfold V3.divS V3.length
  simp only [V3.mk_x, V3.mk_y, V3.mk_z]
  rw [div_mul_div_comm, div_mul_div_comm, div_mul_div_comm, div_add_div_same, div_add_div_same]
  rw [Real.sqrt_div hS (k * k), Real.sqrt_mul_self_eq_abs]

theorem V3.divS_one (v : V3) : v.divS 1 = v := by
  ext <;> simp

theorem V3.normalize_unit {v : V3} (h : v.length = 1) : v.normalize = v := by
  unfold V3.normalize
  rw [h, V3.divS_one]

theorem V3.length_normalize {v : V3} (h : v.length ≠ 0) : v.normalize.length = 1 := by
  unfold V3.normalize
  rw [V3.length_divS, abs_of_nonneg (V3.length_nonneg v), div_self h]

theorem V3.normalize_idem {v : V3} (h : v.length ≠ 0) : v.normalize.normalize = v.normalize :=
  V3.normalize_unit (V3.length_normalize h)

/-- The inverse warp keeps an interior coordinate strictly inside the open
uv square `(-1, 1)`. -/
theorem sphere_to_cube_scalar_abs_lt {x : ℝ} (h0 : 0 < x) (h1 : x < 1) :
    |sphere_to_cube_scalar x| < 1 := by
  unfold sphere_to_cube_scalar
  simp only [w_rewrite]
  have hwlt : (2 * x - 1) * (2 * x - 1) < 1 := by nlinarith
  have hD : 0 < 1 + C_SQR - C_SQR * (2 * x - 1) * (2 * x - 1) :=
    sphere_to_cube_denom_pos hwlt.le
  have hsD : 0 < Real.sqrt (1 + C_SQR - C_SQR * (2 * x - 1) * (2 * x - 1)) :=
    Real.sqrt_pos.mpr hD
  rw [abs_div, abs_of_pos hsD, div_lt_one hsD]
  have hlt : (2 * x - 1) * (2 * x - 1) <
      1 + C_SQR - C_SQR * (2 * x - 1) * (2 * x - 1) := by
    nlinarith [C_SQR_pos]
  calc |2 * x - 1| = Real.sqrt ((2 * x - 1) * (2 * x - 1)) :=
        (Real.sqrt_mul_self_eq_abs _).symm
    _ < _ := Real.sqrt_lt_sqrt (mul_self_nonneg _) hlt

theorem sidePattern_length_pos (side : Fin 6) (u v : ℝ) :
    0 < (sidePattern side (u, v)).length := by
  rw [sidePattern_length]
  exact Real.sqrt_pos.mpr (by nlinarith [mul_self_nonneg u, mul_self_nonneg v])

/-- At height 0 the world position is just the transformed local direction. -/
theorem world_position_height_zero (side : Fin 6) (st : ℝ × ℝ) (model : TerrainModel) :
    (Coordinate.mk side st).world_position model 0 =
      model.position_local_to_world ((sidePattern side (sphere_to_cube st)).normalize) := by
  unfold Coordinate.world_position
  simp only [V3.mulS_zero, V3.add_zero']

theorem world_to_local_of_local_to_world (pos : V3) (maj mn : ℝ)
    (hmaj : maj ≠ 0) (hmn : mn ≠ 0) (w : V3) :
    (TerrainModel.new pos maj mn).position_world_to_local
      ((TerrainModel.new pos maj mn).position_local_to_world w) = w.normalize := by
  rw [new_position_local_to_world, new_position_world_to_local _ _ _ hmaj hmn]
  congr 1
  ext <;> (simp; field_simp)

/-- Decoding a transformed interior pattern direction recovers the side and
the uv pair: the core of the coordinate round trip, by case analysis over
the six faces. -/
theorem from_world_of_pattern (side : Fin 6) {u v : ℝ} (hu : |u| < 1) (hv : |v| < 1)
    (pos : V3) (maj mn : ℝ) (hmaj : 0 < maj) (hmn : 0 < mn) :
    Coordinate.from_world_position
        ((TerrainModel.new pos maj mn).position_local_to_world
          ((sidePattern side (u, v)).normalize))
        (TerrainModel.new pos maj mn) =
      Coordinate.mk side (cube_to_sphere (u, v)) := by
  have hL : 0 < (sidePattern side (u, v)).length := sidePattern_length_pos side u v
  have hn : (TerrainModel.new pos maj mn).position_world_to_local
      ((TerrainModel.new pos maj mn).position_local_to_world
        ((sidePattern side (u, v)).normalize)) = (sidePattern side (u, v)).normalize := by
    rw [world_to_local_of_local_to_world _ _ _ (ne_of_gt hmaj) (ne_of_gt hmn)]
    exact V3.normalize_idem (ne_of_gt hL)
  unfold Coordinate.from_world_position
  rw [hn]
  fin_cases side <;>
    simp only [sidePattern, V3.normalize, V3.divS_def, V3.abs3_def, V3.mk_x, V3.mk_y, V3.mk_z]
  · -- side 0: pattern (-1, -v, u), x-branch, x negative
    have hLp := hL; rw [sidePattern_length] at hLp
    set L := Real.sqrt (1 + u * u + v * v) with hLdef
    have hL0 : L ≠ 0 := ne_of_gt hLp
    have e1 : |(-1 : ℝ) / L| = 1 / L := by rw [abs_div, abs_neg, abs_one, abs_of_pos hLp]
    have e2 : |(-v) / L| = |v| / L := by rw [abs_div, abs_neg, abs_of_pos hLp]
    have e3 : |u / L| = |u| / L := by rw [abs_div, abs_of_pos hLp]
    rw [show ((V3.mk (-1) (-v) u).length) = L from by rw [hLdef]; exact sidePattern_length 0 u v]
    rw [if_pos ⟨by rw [e1, e2]; exact (div_lt_div_iff_of_pos_right hLp).mpr hv,
        by rw [e1, e3]; exact (div_lt_div_iff_of_pos_right hLp).mpr hu⟩]
    rw [if_pos (div_neg_of_neg_of_pos (by norm_num) hLp)]
    rw [show -(u / L) / (-1 / L) = u from by field_simp]
    rw [show (-v) / L / (-1 / L) = v from by field_simp]
    rfl
  · -- side 1: pattern (u, -v, 1), z-branch, z positive
    have hLp := hL; rw [sidePattern_length] at hLp
    set L := Real.sqrt (1 + u * u + v * v) with hLdef
    have hL0 : L ≠ 0 := ne_of_gt hLp
    have e1 : |(1 : ℝ) / L| = 1 / L := by rw [abs_div, abs_one, abs_of_pos hLp]
    have e2 : |(-v) / L| = |v| / L := by rw [abs_div, abs_neg, abs_of_pos hLp]
    have e3 : |u / L| = |u| / L := by rw [abs_div, abs_of_pos hLp]
    rw [show ((V3.mk u (-v) 1).length) = L from by rw [hLdef]; exact sidePattern_length 1 u v]
    rw [if_neg (fun h => absurd h.2 (not_lt.mpr (by
      rw [e1, e3]; exact (div_le_div_iff_of_pos_right hLp).mpr hu.le)))]
    rw [if_pos (by rw [e1, e2]; exact (div_lt_div_iff_of_pos_right hLp).mpr hv)]
    rw [if_pos (by positivity)]
    rw [show u / L / (1 / L) = u from by field_simp]
    rw [show -(-v / L) / (1 / L) = v from by field_simp]
    rfl
  · -- side 2: pattern (u, 1, v), y-branch, y positive
    have hLp := hL; rw [sidePattern_length] at hLp
    set L := Real.sqrt (1 + u * u + v * v) with hLdef
    have hL0 : L ≠ 0 := ne_of_gt hLp
    have e1 : |(1 : ℝ) / L| = 1 / L := by rw [abs_div, abs_one, abs_of_pos hLp]
    have e3 : |u / L| = |u| / L := by rw [abs_div, abs_of_pos hLp]
    have e4 : |v / L| = |v| / L := by rw [abs_div, abs_of_pos hLp]
    rw [show ((V3.mk u 1 v).length) = L from by rw [hLdef]; exact sidePattern_length 2 u v]
    rw [if_neg (fun h => absurd h.1 (not_lt.mpr (by
      rw [e1, e3]; exact (div_le_div_iff_of_pos_right hLp).mpr hu.le)))]
    rw [if_neg (not_lt.mpr (by rw [e1, e4]; exact (div_le_div_iff_of_pos_right hLp).mpr hv.le))]
    rw [if_pos (by positivity)]
    rw [show u / L / (1 / L) = u from by field_simp]
    rw [show v / L / (1 / L) = v from by field_simp]
    rfl
  · -- side 3: pattern (1, -u, v), x-branch, x positive
    have hLp := hL; rw [sidePattern_length] at hLp
    set L := Real.sqrt (1 + u * u + v * v) with hLdef
    have hL0 : L ≠ 0 := ne_of_gt hLp
    have e1 : |(1 : ℝ) / L| = 1 / L := by rw [abs_div, abs_one, abs_of_pos hLp]
    have e2 : |(-u) / L| = |u| / L := by rw [abs_div, abs_neg, abs_of_pos hLp]
    have e4 : |v / L| = |v| / L := by rw [abs_div, abs_of_pos hLp]
    rw [show ((V3.mk 1 (-u) v).length) = L from by rw [hLdef]; exact sidePattern_length 3 u v]
    rw [if_pos ⟨by rw [e1, e2]; exact (div_lt_div_iff_of_pos_right hLp).mpr hu,
        by rw [e1, e4]; exact (div_lt_div_iff_of_pos_right hLp).mpr hv⟩]
    rw [if_neg (not_lt.mpr (by positivity))]
    rw [show -((-u) / L) / (1 / L) = u from by field_simp]
    rw [show v / L / (1 / L) = v from by field_simp]
    rfl
  · -- side 4: pattern (v, -u, -1), z-branch, z negative
    have hLp := hL; rw [sidePattern_length] at hLp
    set L := Real.sqrt (1 + u * u + v * v) with hLdef
    have hL0 : L ≠ 0 := ne_of_gt hLp
    have e1 : |(-1 : ℝ) / L| = 1 / L := by rw [abs_div, abs_neg, abs_one, abs_of_pos hLp]
    have e2 : |(-u) / L| = |u| / L := by rw [abs_div, abs_neg, abs_of_pos hLp]
    have e4 : |v / L| = |v| / L := by rw [abs_div, abs_of_pos hLp]
    rw [show ((V3.mk v (-u) (-1)).length) = L from by rw [hLdef]; exact sidePattern_length 4 u v]
    rw [if_neg (fun h => absurd h.2 (not_lt.mpr (by
      rw [e1, e4]; exact (div_le_div_iff_of_pos_right hLp).mpr hv.le)))]
    rw [if_pos (by rw [e1, e2]; exact (div_lt_div_iff_of_pos_right hLp).mpr hu)]
    rw [if_neg (not_lt.mpr (le_of_lt (div_neg_of_neg_of_pos (by norm_num) hLp)))]
    rw [show (-u) / L / (-1 / L) = u from by field_simp]
    rw [show -(v / L) / (-1 / L) = v from by field_simp]
    rfl
  · -- side 5: pattern (v, -1, u), y-branch, y negative
    have hLp := hL; rw [sidePattern_length] at hLp
    set L := Real.sqrt (1 + u * u + v * v) with hLdef
    have hL0 : L ≠ 0 := ne_of_gt hLp
    have e1 : |(-1 : ℝ) / L| = 1 / L := by rw [abs_div, abs_neg, abs_one, abs_of_pos hLp]
    have e3 : |u / L| = |u| / L := by rw [abs_div, abs_of_pos hLp]
    have e4 : |v / L| = |v| / L := by rw [abs_div, abs_of_pos hLp]
    rw [show ((V3.mk v (-1) u).length) = L from by rw [hLdef]; exact sidePattern_length 5 u v]
    rw [if_neg (fun h => absurd h.1 (not_lt.mpr (by
      rw [e1, e4]; exact (div_le_div_iff_of_pos_right hLp).mpr hv.le)))]
    rw [if_neg (not_lt.mpr (by rw [e1, e3]; exact (div_le_div_iff_of_pos_right hLp).mpr hu.le))]
    rw [if_neg (not_lt.mpr (le_of_lt (div_neg_of_neg_of_pos (by norm_num) hLp)))]
    rw [show -(u / L) / (-1 / L) = u from by field_simp]
    rw [show -(v / L) / (-1 / L) = v from by field_simp]
    rfl

theorem abs_div_le_one {a b : ℝ} (h : |a| ≤ |b|) : |a / b| ≤ 1 := by
  rcases eq_or_ne b 0 with hb | hb
  · simp [hb]
  · rw [abs_div, div_le_one (abs_pos.mpr hb)]
    exact h

/-- The forward warp maps `[-1, 1]` into `[0, 1]`. -/
theorem cube_to_sphere_scalar_mem {x : ℝ} (h : |x| ≤ 1) :
    0 ≤ cube_to_sphere_scalar x ∧ cube_to_sphere_scalar x ≤ 1 := by
  unfold cube_to_sphere_scalar
  have hden : (0:ℝ) < 1 + C_SQR * x * x := by nlinarith [C_SQR_pos, mul_self_nonneg x]
  have hq : (0:ℝ) ≤ (1 + C_SQR) / (1 + C_SQR * x * x) := by
    apply div_nonneg _ hden.le
    nlinarith [C_SQR_pos]
  have hx2 : x ^ 2 ≤ 1 := (sq_le_one_iff_abs_le_one x).mpr h
  have hsq : (x * Real.sqrt ((1 + C_SQR) / (1 + C_SQR * x * x))) ^ 2 ≤ 1 := by
    rw [mul_pow, Real.sq_sqrt hq, ← mul_div_assoc, div_le_one hden]
    nlinarith [C_SQR_pos]
  have habs := abs_le.mp ((sq_le_one_iff_abs_le_one _).mp hsq)
  constructor <;> nlinarith [habs.1, habs.2]

/-- The st coordinate produced by `from_world_position` always lies in
`[0, 1]^2`: the selected dominant axis majorizes the two ratio numerators. -/
theorem from_world_position_st_mem (w : V3) (model : TerrainModel) :
    0 ≤ (Coordinate.from_world_position w model).st.1 ∧
      (Coordinate.from_world_position w model).st.1 ≤ 1 ∧
      0 ≤ (Coordinate.from_world_position w model).st.2 ∧
      (Coordinate.from_world_position w model).st.2 ≤ 1 := by
  unfold Coordinate.from_world_position
  set n := model.position_world_to_local w with hn
  simp only [V3.abs3_def, V3.mk_x, V3.mk_y, V3.mk_z]
  have key : ∀ a b : ℝ, |a| ≤ |b| →
      0 ≤ cube_to_sphere_scalar (a / b) ∧ cube_to_sphere_scalar (a / b) ≤ 1 :=
    fun a b h => cube_to_sphere_scalar_mem (abs_div_le_one h)
  by_cases hA : |n.x| > |n.y| ∧ |n.x| > |n.z|
  · rw [if_pos hA]
    by_cases hx : n.x < 0
    · rw [if_pos hx]
      exact ⟨(key _ _ (by rw [abs_neg]; exact hA.2.le)).1,
        (key _ _ (by rw [abs_neg]; exact hA.2.le)).2,
        (key _ _ hA.1.le).1, (key _ _ hA.1.le).2⟩
    · rw [if_neg hx]
      exact ⟨(key _ _ (by rw [abs_neg]; exact hA.1.le)).1,
        (key _ _ (by rw [abs_neg]; exact hA.1.le)).2,
        (key _ _ hA.2.le).1, (key _ _ hA.2.le).2⟩
  · by_cases hD : |n.z| > |n.y|
    · have hxz : |n.x| ≤ |n.z| := by
        push_neg at hA
        rcases le_or_lt |n.x| |n.y| with h | h
        · linarith
        · exact hA h
      rw [if_neg hA, if_pos hD]
      by_cases hzs : n.z > 0
      · rw [if_pos hzs]
        exact ⟨(key _ _ hxz).1, (key _ _ hxz).2,
          (key _ _ (by rw [abs_neg]; exact hD.le)).1,
          (key _ _ (by rw [abs_neg]; exact hD.le)).2⟩
      · rw [if_neg hzs]
        exact ⟨(key _ _ hD.le).1, (key _ _ hD.le).2,
          (key _ _ (by rw [abs_neg]; exact hxz)).1,
          (key _ _ (by rw [abs_neg]; exact hxz)).2⟩
    · have hzy : |n.z| ≤ |n.y| := not_lt.mp hD
      have hxy : |n.x| ≤ |n.y| := by
        push_neg at hA
        rcases le_or_lt |n.x| |n.y| with h | h
        · exact h
        · linarith [hA h]
      rw [if_neg hA, if_neg hD]
      by_cases hys : n.y > 0
      · rw [if_pos hys]
        exact ⟨(key _ _ hxy).1, (key _ _ hxy).2, (key _ _ hzy).1, (key _ _ hzy).2⟩
      · rw [if_neg hys]
        exact ⟨(key _ _ (by rw [abs_neg]; exact hzy)).1,
          (key _ _ (by rw [abs_neg]; exact hzy)).2,
          (key _ _ (by rw [abs_neg]; exact hxy)).1,
          (key _ _ (by rw [abs_neg]; exact hxy)).2⟩

theorem tile_from_world_xy (w : V3) (lod : ℤ) (model : TerrainModel) :
    (Tile.from_world_position w lod model).1.xy =
      (rtrunc ((Coordinate.from_world_position w model).st.1 * (tile_count lod : ℝ)),
       rtrunc ((Coordinate.from_world_position w model).st.2 * (tile_count lod : ℝ))) := rfl

theorem tile_from_world_offset (w : V3) (lod : ℤ) (model : TerrainModel) :
    (Tile.from_world_position w lod model).2 =
      (rfract ((Coordinate.from_world_position w model).st.1 * (tile_count lod : ℝ)),
       rfract ((Coordinate.from_world_position w model).st.2 * (tile_count lod : ℝ))) := rfl

theorem tile_count_pos (lod : ℤ) : (0:ℤ) < tile_count lod := pow_pos (by norm_num) _

/-- Bounds for one tile-index/offset component: `x ∈ [0, tc]`, the offset is
in `[0, 1)`, and the truncation is the floor of the scaled coordinate. -/
theorem tile_component_bounds {s : ℝ} (h0 : 0 ≤ s) (h1 : s ≤ 1) (tc : ℤ) (htc : 0 < tc) :
    0 ≤ rtrunc (s * (tc : ℝ)) ∧ rtrunc (s * (tc : ℝ)) ≤ tc ∧
      0 ≤ rfract (s * (tc : ℝ)) ∧ rfract (s * (tc : ℝ)) < 1 ∧
      rtrunc (s * (tc : ℝ)) = ⌊s * (tc : ℝ)⌋ := by
  have htcR : (0:ℝ) < (tc : ℝ) := by exact_mod_cast htc
  have hX0 : (0:ℝ) ≤ s * (tc : ℝ) := mul_nonneg h0 htcR.le
  have hX1 : s * (tc : ℝ) ≤ (tc : ℝ) := by nlinarith
  have htr : rtrunc (s * (tc : ℝ)) = ⌊s * (tc : ℝ)⌋ := if_pos hX0
  have hfr : rfract (s * (tc : ℝ)) = Int.fract (s * (tc : ℝ)) := by
    unfold rfract Int.fract
    rw [htr]
  refine ⟨?_, ?_, ?_, ?_, htr⟩
  · rw [htr]
    exact Int.floor_nonneg.mpr hX0
  · rw [htr]
    calc ⌊s * (tc : ℝ)⌋ ≤ ⌊(tc : ℝ)⌋ := Int.floor_le_floor hX1
      _ = tc := Int.floor_intCast tc
  · rw [hfr]
    exact Int.fract_nonneg _
  · rw [hfr]
    exact Int.fract_lt_one _

/-- Claim C9 (amended): for every world position and every non-negative lod,
`Tile::from_world_position` returns indices in the closed range
`[0, 2^lod]` — the upper end `2^lod` is attained exactly on the far face
boundary `st = 1`, so the claimed half-open range `[0, 2^lod)` fails there —
a vertex offset in `[0, 1)^2`, and indices equal to the floor of the
coordinate's st scaled by `2^lod`. -/
theorem tile_from_world_position_bounds (w : V3) (model : TerrainModel) (lod : ℤ)
    (_hlod : 0 ≤ lod) :
    0 ≤ (Tile.from_world_position w lod model).1.xy.1 ∧
      (Tile.from_world_position w lod model).1.xy.1 ≤ tile_count lod ∧
      0 ≤ (Tile.from_world_position w lod model).1.xy.2 ∧
      (Tile.from_world_position w lod model).1.xy.2 ≤ tile_count lod ∧
      0 ≤ (Tile.from_world_position w lod model).2.1 ∧
      (Tile.from_world_position w lod model).2.1 < 1 ∧
      0 ≤ (Tile.from_world_position w lod model).2.2 ∧
      (Tile.from_world_position w lod model).2.2 < 1 ∧
      (Tile.from_world_position w lod model).1.xy.1 =
        ⌊(Coordinate.from_world_position w model).st.1 * (tile_count lod : ℝ)⌋ ∧
      (Tile.from_world_position w lod model).1.xy.2 =
        ⌊(Coordinate.from_world_position w model).st.2 * (tile_count lod : ℝ)⌋ := by
  obtain ⟨m1, m2, m3, m4⟩ := from_world_position_st_mem w model
  obtain ⟨b1, b2, b3, b4, b5⟩ := tile_component_bounds m1 m2 (tile_count lod) (tile_count_pos lod)
  obtain ⟨c1, c2, c3, c4, c5⟩ := tile_component_bounds m3 m4 (tile_count lod) (tile_count_pos lod)
  rw [tile_from_world_xy, tile_from_world_offset]
  exact ⟨b1, b2, c1, c2, b3, b4, c3, c4, b5, c5⟩

/-- Witness for the C9 amended bounds at `w = (1,0,0)`, lod 1, unit sphere. -/
theorem tile_from_world_position_bounds_witness :
    (0:ℤ) ≤ 1 ∧
      (0 ≤ (Tile.from_world_position ⟨1, 0, 0⟩ 1 unitModel).1.xy.1 ∧
        (Tile.from_world_position ⟨1, 0, 0⟩ 1 unitModel).1.xy.1 ≤ tile_count 1 ∧
        0 ≤ (Tile.from_world_position ⟨1, 0, 0⟩ 1 unitModel).1.xy.2 ∧
        (Tile.from_world_position ⟨1, 0, 0⟩ 1 unitModel).1.xy.2 ≤ tile_count 1 ∧
        0 ≤ (Tile.from_world_position ⟨1, 0, 0⟩ 1 unitModel).2.1 ∧
        (Tile.from_world_position ⟨1, 0, 0⟩ 1 unitModel).2.1 < 1 ∧
        0 ≤ (Tile.from_world_position ⟨1, 0, 0⟩ 1 unitModel).2.2 ∧
        (Tile.from_world_position ⟨1, 0, 0⟩ 1 unitModel).2.2 < 1 ∧
        (Tile.from_world_position ⟨1, 0, 0⟩ 1 unitModel).1.xy.1 =
          ⌊(Coordinate.from_world_position ⟨1, 0, 0⟩ unitModel).st.1 * (tile_count 1 : ℝ)⌋ ∧
        (Tile.from_world_position ⟨1, 0, 0⟩ 1 unitModel).1.xy.2 =
          ⌊(Coordinate.from_world_position ⟨1, 0, 0⟩ unitModel).st.2 * (tile_count 1 : ℝ)⌋) :=
  ⟨by norm_num, tile_from_world_position_bounds ⟨1, 0, 0⟩ unitModel 1 (by norm_num)⟩

/-- Concrete evaluation: the view position `(-1, 0, 0)` on the unit sphere
decodes to side 0 with st `(1/2, 1/2)`. -/
theorem coord_eval_neg_x :
    Coordinate.from_world_position ⟨-1, 0, 0⟩ unitModel = Coordinate.mk 0 (1/2, 1/2) := by
  have hnorm : unitModel.position_world_to_local ⟨-1, 0, 0⟩ = V3.mk (-1) 0 0 := by
    rw [show unitModel = TerrainModel.new ⟨0, 0, 0⟩ 1 1 from rfl,
      new_position_world_to_local _ _ _ one_ne_zero one_ne_zero]
    unfold V3.normalize V3.length
    ext <;> simp
  simp only [Coordinate.from_world_position, hnorm, V3.abs3_def, V3.mk_x, V3.mk_y, V3.mk_z]
  rw [if_pos (by norm_num), if_pos (by norm_num)]
  norm_num [cube_to_sphere, cube_to_sphere_scalar]

/-- Concrete evaluation: the world position `(1, 1, 0)` (an exact x-y
magnitude tie) decodes on the unit sphere to side 2 with the boundary
coordinate st = `(1, 1/2)`. -/
theorem coord_eval_boundary :
    Coordinate.from_world_position ⟨1, 1, 0⟩ unitModel = Coordinate.mk 2 (1, 1/2) := by
  have hs2 : (0:ℝ) < Real.sqrt 2 := Real.sqrt_pos.mpr (by norm_num)
  have hnorm : unitModel.position_world_to_local ⟨1, 1, 0⟩ =
      V3.mk (1 / Real.sqrt 2) (1 / Real.sqrt 2) 0 := by
    rw [show unitModel = TerrainModel.new ⟨0, 0, 0⟩ 1 1 from rfl,
      new_position_world_to_local _ _ _ one_ne_zero one_ne_zero]
    unfold V3.normalize V3.length
    ext <;> simp <;> norm_num
  have hne : (1:ℝ) / Real.sqrt 2 ≠ 0 := ne_of_gt (by positivity)
  simp only [Coordinate.from_world_position, hnorm, V3.abs3_def, V3.mk_x, V3.mk_y, V3.mk_z]
  rw [if_neg (by simp), if_neg (by rw [abs_zero]; exact not_lt.mpr (abs_nonneg _)),
    if_pos (by positivity)]
  rw [show (1:ℝ) / Real.sqrt 2 / (1 / Real.sqrt 2) = (1:ℝ) from div_self hne]
  rw [show (0:ℝ) / ((1:ℝ) / Real.sqrt 2) = 0 from zero_div _]
  have hc1 : cube_to_sphere_scalar 1 = 1 := by
    unfold cube_to_sphere_scalar
    rw [show (1:ℝ) + C_SQR * 1 * 1 = 1 + C_SQR from by ring,
      div_self (by norm_num [C_SQR]), Real.sqrt_one]
    norm_num
  have hc0 : cube_to_sphere_scalar 0 = 1/2 := by
    unfold cube_to_sphere_scalar
    norm_num
  unfold cube_to_sphere
  simp only []
  rw [hc1, hc0]

/-- C9 counterexample: at the world position `(1, 1, 0)` on the unit sphere
(whose st.1 is exactly 1) and lod 1, the tile x index returned by
`Tile::from_world_position` is `2 = 2^1`, which is not inside the claimed
half-open range `[0, 2^1)`. -/
theorem tile_index_boundary_counterexample :
    (Tile.from_world_position ⟨1, 1, 0⟩ 1 unitModel).1.xy.1 = 2 ∧
      ¬((Tile.from_world_position ⟨1, 1, 0⟩ 1 unitModel).1.xy.1 < tile_count 1) := by
  have hval : (Tile.from_world_position ⟨1, 1, 0⟩ 1 unitModel).1.xy.1 = 2 := by
    rw [show (Tile.from_world_position ⟨1, 1, 0⟩ 1 unitModel).1.xy.1 =
      rtrunc ((Coordinate.from_world_position ⟨1, 1, 0⟩ unitModel).st.1 *
        (tile_count 1 : ℝ)) from rfl]
    rw [coord_eval_boundary]
    show rtrunc ((1:ℝ) * (tile_count 1 : ℝ)) = 2
    rw [show ((1:ℝ) * (tile_count 1 : ℝ)) = ((2:ℤ) : ℝ) from by norm_num [tile_count]]
    unfold rtrunc
    rw [if_pos (by norm_num), Int.floor_intCast]
  refine ⟨hval, ?_⟩
  rw [hval]
  norm_num [tile_count]

theorem project_self_eval :
    (Coordinate.mk 0 ((1:ℝ)/2, (1:ℝ)/2)).project_to_side 0 =
      Coordinate.mk 0 ((1:ℝ)/2, (1:ℝ)/2) := rfl

/-- Rounding the centred view st `(1/2, 1/2)` to the lod-1 grid leaves it
fixed (it is already a tile corner at lod 1). -/
theorem origin_eval :
    TerrainModelApproximation.origin_coordinate (Coordinate.mk 0 ((1:ℝ)/2, (1:ℝ)/2)) 1 =
      Coordinate.mk 0 ((1:ℝ)/2, (1:ℝ)/2) := by
  unfold TerrainModelApproximation.origin_coordinate
  have h : rround (((Coordinate.mk (0:Fin 6) ((1:ℝ)/2, (1:ℝ)/2)).st.1) * (tile_count 1 : ℝ)) =
      1 := by
    rw [show (((Coordinate.mk (0:Fin 6) ((1:ℝ)/2, (1:ℝ)/2)).st.1) * (tile_count 1 : ℝ)) =
      1 from by norm_num [tile_count]]
    unfold rround
    rw [if_pos (by norm_num)]
    norm_num [Int.floor_eq_iff]
  rw [h]
  norm_num [tile_count]

theorem compute_neg_x_origin_st :
    ((TerrainModelApproximation.compute unitModel ⟨-1, 0, 0⟩ 1).sides 0).origin_st =
      ((1:ℝ)/2, (1:ℝ)/2) := by
  rw [compute_sides, computeSide_origin_st, coord_eval_neg_x, origin_eval, project_self_eval]

theorem compute_neg_x_origin_xy :
    ((TerrainModelApproximation.compute unitModel ⟨-1, 0, 0⟩ 1).sides 0).origin_xy =
      (1, 1) := by
  rw [compute_sides, computeSide_origin_xy, coord_eval_neg_x, origin_eval, project_self_eval]
  have h : rtrunc (((Coordinate.mk (0:Fin 6) ((1:ℝ)/2, (1:ℝ)/2)).st.1) * (tile_count 1 : ℝ)) =
      1 := by
    rw [show (((Coordinate.mk (0:Fin 6) ((1:ℝ)/2, (1:ℝ)/2)).st.1) * (tile_count 1 : ℝ)) =
      ((1:ℤ) : ℝ) from by norm_num [tile_count]]
    unfold rtrunc
    rw [if_pos (by norm_num), Int.floor_intCast]
  rw [show ((Coordinate.mk (0:Fin 6) ((1:ℝ)/2, (1:ℝ)/2)).st.2) =
    ((Coordinate.mk (0:Fin 6) ((1:ℝ)/2, (1:ℝ)/2)).st.1) from rfl]
  rw [h]

/-- Claim C1 (evaluation of the code at the failing input): with the origin
computed at anchor lod 1 from the view `(-1, 0, 0)` on the unit sphere
(origin st `(1/2, 1/2)`, origin tile `(1, 1)`), the tile at lod 2 with index
`(3, 3)` — strictly finer than the anchor and inside the origin tile's
footprint `[2, 4)^2` — and vertex offset `(1/4, 1/4)` yield
`relative_st = (0.625, 0.625)` but `approximate_relative_st =
(1.0625, 1.0625)`: the two paths disagree by `0.4375` (70 percent relative),
refuting the claimed agreement within about `1e-5`. -/
theorem fast_path_divergence_eval :
    TerrainModelApproximation.relative_st
        (TerrainModelApproximation.compute unitModel ⟨-1, 0, 0⟩ 1)
        (Tile.new 0 2 3 3) ((1:ℝ)/4, (1:ℝ)/4) = (5/8, 5/8) ∧
      TerrainModelApproximation.approximate_relative_st?
        (TerrainModelApproximation.compute unitModel ⟨-1, 0, 0⟩ 1)
        (Tile.new 0 2 3 3) ((1:ℝ)/4, (1:ℝ)/4) = some (17/16, 17/16) ∧
      (17:ℝ)/16 - 5/8 = 7/16 := by
  refine ⟨?_, ?_, by norm_num⟩
  · unfold TerrainModelApproximation.relative_st
    simp only [Tile.new]
    rw [compute_neg_x_origin_st, compute_origin_lod]
    norm_num [tile_count, show (2:ℤ).toNat = 2 from rfl]
  · unfold TerrainModelApproximation.approximate_relative_st?
    simp only [Tile.new]
    rw [compute_neg_x_origin_xy, compute_origin_lod]
    norm_num [tile_count, show (2:ℤ).toNat = 2 from rfl]

/-- Claim C6 (evaluation of the code at the failing input): called with a
tile at lod 0 while the anchor lod is 1, the fast path's only reaction is the
`dbg!` diagnostic branch (the warn condition holds), after which it still
evaluates the `<< -1` shift — an arithmetic shift overflow that panics in
debug builds (`none` here) — rather than returning any signaled
invalid-input error value. -/
theorem precision_contract_violation_eval :
    TerrainModelApproximation.approximate_relative_st_warns
        (TerrainModelApproximation.compute unitModel ⟨-1, 0, 0⟩ 1) (Tile.new 0 0 0 0) = true ∧
      TerrainModelApproximation.approximate_relative_st?
        (TerrainModelApproximation.compute unitModel ⟨-1, 0, 0⟩ 1)
        (Tile.new 0 0 0 0) (0, 0) = none := by
  constructor
  · unfold TerrainModelApproximation.approximate_relative_st_warns
    simp [Tile.new, compute_origin_lod]
  · unfold TerrainModelApproximation.approximate_relative_st?
    simp [Tile.new, compute_origin_lod]

/-- Claim C10 (amended): the fast path is a total function exactly when both
`i32` shift amounts are in range — the tile-offset shift amount
`tile.lod - origin_lod` and the divisor shift amount `tile.lod` must each lie
in `[0, 32)` (the `i32` shift width); outside that range — in particular
whenever `tile.lod < origin_lod`, where the offset shift amount is negative —
it panics in debug builds (an arithmetic shift overflow) instead of returning
an error value, and the `dbg!` diagnostic branch triggers exactly when
`tile.lod < origin_lod`. -/
theorem approximate_relative_st_totality (a : TerrainModelApproximation) (tile : Tile)
    (vo : ℝ × ℝ) :
    ((TerrainModelApproximation.approximate_relative_st? a tile vo).isSome =
        decide ((0 ≤ tile.lod - a.origin_lod ∧ tile.lod - a.origin_lod < 32) ∧
          (0 ≤ tile.lod ∧ tile.lod < 32))) ∧
      (TerrainModelApproximation.approximate_relative_st_warns a tile =
        decide (tile.lod < a.origin_lod)) := by
  constructor
  · unfold TerrainModelApproximation.approximate_relative_st?
    by_cases h1 : 0 ≤ tile.lod - a.origin_lod ∧ tile.lod - a.origin_lod < 32
    · rw [if_pos h1]
      by_cases h2 : 0 ≤ tile.lod ∧ tile.lod < 32
      · rw [if_pos h2]
        simp only [Option.isSome_some]
        exact (decide_eq_true ⟨h1, h2⟩).symm
      · rw [if_neg h2]
        simp only [Option.isSome_none]
        exact (decide_eq_false (fun hc => h2 hc.2)).symm
    · rw [if_neg h1]
      simp only [Option.isSome_none]
      exact (decide_eq_false (fun hc => h1 hc.1)).symm
  · unfold TerrainModelApproximation.approximate_relative_st_warns
    simp only [decide_eq_decide]
    omega

/-- C10 counterexample: at shift amount exactly 32 (`tile.lod = 32`,
`origin_lod = 0`) the precondition `tile.lod >= origin_lod` of the claim
holds, yet the `i32` left shift still overflows (panics in debug builds,
modelled as `none`), so the precondition alone does not make the left shift
well-defined. -/
theorem shift_width_counterexample :
    (0:ℤ) ≤ (Tile.new 0 32 0 0).lod -
        (TerrainModelApproximation.compute unitModel ⟨-1, 0, 0⟩ 0).origin_lod ∧
      TerrainModelApproximation.approximate_relative_st?
        (TerrainModelApproximation.compute unitModel ⟨-1, 0, 0⟩ 0)
        (Tile.new 0 32 0 0) (0, 0) = none := by
  constructor
  · simp [Tile.new, compute_origin_lod]
  · unfold TerrainModelApproximation.approximate_relative_st?
    simp [Tile.new, compute_origin_lod]

/-- Claim C8 (amended): `TerrainModel::new` performs no validation at all:
with both axes zero it still returns a model, whose forward transform
collapses every local position to the model position and whose world-to-local
transform (the inverse of a singular matrix — non-finite in the Rust code,
the zero map in this exact-arithmetic model since `1 / 0 = 0`) sends every
world position to the zero vector; construction never fails fast. -/
theorem degenerate_model_silent (pos v w : V3) :
    (TerrainModel.new pos 0 0).position_local_to_world v = pos ∧
      (TerrainModel.new pos 0 0).position_world_to_local w = 0 := by
  constructor
  · rw [new_position_local_to_world]
    ext <;> simp
  · unfold TerrainModel.new TerrainModel.position_world_to_local Mat4A.inverse
      Mat4A.from_scale_translation Mat4A.transform_point3 M3.diag M3.adjugate M3.det
      M3.smulM M3.mulVec V3.normalize V3.length
    ext <;> simp

/-- C8 counterexample: constructing a model with degenerate (zero) axes does
not fail fast — the spec-modelled checked constructor rejects the input while
the source constructor happily returns a model whose transform collapses
`(1, 2, 3)` to the origin. -/
theorem degenerate_model_counterexample :
    TerrainModel.new_spec ⟨0, 0, 0⟩ 0 0 = none ∧
      (TerrainModel.new ⟨0, 0, 0⟩ 0 0).position_local_to_world ⟨1, 2, 3⟩ = ⟨0, 0, 0⟩ := by
  constructor
  · unfold TerrainModel.new_spec
    norm_num
  · rw [new_position_local_to_world]
    ext <;> simp

/-- Claim C5: for every face, every st strictly inside `(0,1)^2` (excluding
the face-boundary ties) and every valid terrain model (positive axes),
`from_world_position` applied to `Coordinate{side, st}.world_position(model, 0)`
returns exactly `Coordinate{side, st}` in the exact-real model (hence within
floating-point tolerance in the source). -/
theorem coordinate_round_trip (pos : V3) (maj mn : ℝ) (hmaj : 0 < maj) (hmn : 0 < mn)
    (side : Fin 6) (st : ℝ × ℝ)
    (h1 : 0 < st.1) (h2 : st.1 < 1) (h3 : 0 < st.2) (h4 : st.2 < 1) :
    Coordinate.from_world_position
        ((Coordinate.mk side st).world_position (TerrainModel.new pos maj mn) 0)
        (TerrainModel.new pos maj mn) = Coordinate.mk side st := by
  rw [world_position_height_zero]
  rw [show sphere_to_cube st = (sphere_to_cube_scalar st.1, sphere_to_cube_scalar st.2)
    from rfl]
  rw [from_world_of_pattern side (sphere_to_cube_scalar_abs_lt h1 h2)
    (sphere_to_cube_scalar_abs_lt h3 h4) pos maj mn hmaj hmn]
  unfold cube_to_sphere
  simp only []
  rw [cube_to_sphere_sphere_to_cube h1.le h2.le, cube_to_sphere_sphere_to_cube h3.le h4.le]

/-- Witness for C5 at side 0, `st = (1/2, 1/2)`, the unit sphere. -/
theorem coordinate_round_trip_witness :
    (0:ℝ) < 1 ∧ (0:ℝ) < 1/2 ∧ ((1:ℝ)/2) < 1 ∧
      Coordinate.from_world_position
          ((Coordinate.mk 0 ((1:ℝ)/2, (1:ℝ)/2)).world_position
            (TerrainModel.new ⟨0, 0, 0⟩ 1 1) 0)
          (TerrainModel.new ⟨0, 0, 0⟩ 1 1) = Coordinate.mk 0 ((1:ℝ)/2, (1:ℝ)/2) :=
  ⟨by norm_num, by norm_num, by norm_num,
    coordinate_round_trip ⟨0, 0, 0⟩ 1 1 (by norm_num) (by norm_num) 0 ((1:ℝ)/2, (1:ℝ)/2)
      (by norm_num) (by norm_num) (by norm_num) (by norm_num)⟩

/-- Claim C7 (amended): face selection in `from_world_position` is the fixed
deterministic rule "y wins if its magnitude is at least both others, else z
wins if its magnitude is at least x's, else x wins" — i.e. on magnitude ties
the precedence is y before z before x (the source tests x, then z, then y
with strict inequalities, so the later-tested axis wins a tie), and the face
is then picked by the winning axis's sign.  Repeated calls on the same input
trivially return this same face (the function is pure). -/
theorem face_selection_order (world_position : V3) (model : TerrainModel) :
    (Coordinate.from_world_position world_position model).side =
      (if |(model.position_world_to_local world_position).y| ≥
            |(model.position_world_to_local world_position).x| ∧
          |(model.position_world_to_local world_position).y| ≥
            |(model.position_world_to_local world_position).z| then
        (if (model.position_world_to_local world_position).y > 0 then 2 else 5)
      else if |(model.position_world_to_local world_position).z| ≥
            |(model.position_world_to_local world_position).x| then
        (if (model.position_world_to_local world_position).z > 0 then 1 else 4)
      else if (model.position_world_to_local world_position).x < 0 then 0 else 3) := by
  unfold Coordinate.from_world_position
  set n := model.position_world_to_local world_position with hn
  simp only [V3.abs3_def, V3.mk_x, V3.mk_y, V3.mk_z, apply_ite (f := Prod.fst (α := Fin 6)
    (β := ℝ × ℝ))]
  by_cases hA : |n.x| > |n.y| ∧ |n.x| > |n.z|
  · have hy : ¬(|n.y| ≥ |n.x| ∧ |n.y| ≥ |n.z|) := fun h => absurd hA.1 (not_lt.mpr h.1)
    have hz : ¬(|n.z| ≥ |n.x|) := not_le.mpr hA.2
    rw [if_pos hA, if_neg hy, if_neg hz]
  · by_cases hD : |n.z| > |n.y|
    · have hy : ¬(|n.y| ≥ |n.x| ∧ |n.y| ≥ |n.z|) := fun h => absurd hD (not_lt.mpr h.2)
      have hz : |n.z| ≥ |n.x| := by
        push_neg at hA
        rcases le_or_lt |n.x| |n.y| with h | h
        · linarith
        · exact hA h
      rw [if_neg hA, if_pos hD, if_neg hy, if_pos hz]
    · have hy : |n.y| ≥ |n.x| ∧ |n.y| ≥ |n.z| := by
        push_neg at hA hD
        refine ⟨?_, hD⟩
        rcases le_or_lt |n.x| |n.y| with h | h
        · exact h
        · linarith [hA h]
      rw [if_neg hA, if_neg hD, if_pos hy]

/-- C7 counterexample: at the exact x-z magnitude tie reached from world
position `(1, 0, 1)` on the unit sphere, `from_world_position` returns the
z-derived face 1, not the x-derived face 3 that the claimed
"x before z before y" precedence would produce. -/
theorem face_selection_tie_counterexample :
    (Coordinate.from_world_position ⟨1, 0, 1⟩ unitModel).side = 1 ∧ (1 : Fin 6) ≠ 3 := by
  refine ⟨?_, by decide⟩
  have hs2 : (0:ℝ) < Real.sqrt 2 := Real.sqrt_pos.mpr (by norm_num)
  have hnorm : unitModel.position_world_to_local ⟨1, 0, 1⟩ =
      V3.mk (1 / Real.sqrt 2) 0 (1 / Real.sqrt 2) := by
    rw [show unitModel = TerrainModel.new ⟨0, 0, 0⟩ 1 1 from rfl]
    rw [new_position_world_to_local _ _ _ (by norm_num) (by norm_num)]
    unfold V3.normalize V3.length
    ext <;> simp <;> norm_num
  have h1 : ¬(|(1:ℝ) / Real.sqrt 2| > |(0:ℝ)| ∧
      |(1:ℝ) / Real.sqrt 2| > |(1:ℝ) / Real.sqrt 2|) := by
    simp
  have h2 : |(1:ℝ) / Real.sqrt 2| > |(0:ℝ)| := by
    rw [abs_zero]
    exact abs_pos.mpr (ne_of_gt (by positivity))
  have h3 : (1:ℝ) / Real.sqrt 2 > 0 := by positivity
  simp only [Coordinate.from_world_position, hnorm, V3.abs3_def, V3.mk_x, V3.mk_y, V3.mk_z]
  rw [if_neg h1, if_pos h2, if_pos h3]

/-- Claim C4: for every `st` in `[0,1]^2`, the composition
`cube_to_sphere (sphere_to_cube st)` returns `st`: in the exact-real model of
the two warp functions the round trip is an exact identity (hence, a fortiori,
within the claimed `1e-9` double-precision tolerance). -/
theorem warp_round_trip (st : ℝ × ℝ)
    (h1 : 0 ≤ st.1) (h2 : st.1 ≤ 1) (h3 : 0 ≤ st.2) (h4 : st.2 ≤ 1) :
    cube_to_sphere (sphere_to_cube st) = st := by
  unfold cube_to_sphere sphere_to_cube
  have e1 := cube_to_sphere_sphere_to_cube h1 h2
  have e2 := cube_to_sphere_sphere_to_cube h3 h4
  simp only [e1, e2]

/-- Witness for C4 at the concrete point `st = (1/2, 1/2)`. -/
theorem warp_round_trip_witness :
    (0:ℝ) ≤ 1/2 ∧ (1/2:ℝ) ≤ 1 ∧
      cube_to_sphere (sphere_to_cube ((1:ℝ)/2, (1:ℝ)/2)) = ((1:ℝ)/2, (1:ℝ)/2) :=
  ⟨by norm_num, by norm_num,
    warp_round_trip ((1:ℝ)/2, (1:ℝ)/2) (by norm_num) (by norm_num) (by norm_num) (by norm_num)⟩

end

end PrecisionDemo
